import Mathlib

/-!
Verification of the Stingray pool / node reconciliation modules
(`library/network/stingray/stingray_pool.py`, `stingray_node.py`).

The modules are shallowly embedded as pure Lean functions:
JSON values become the inductive `JVal`, Python dictionaries become
association lists in iteration order, the HTTP layer becomes explicit
response records passed in, and each reconciliation method becomes a
function from its inputs to a run record listing the writes issued,
the `changed` flag, the reported message and the resulting in-memory
state.
-/

set_option autoImplicit false

/-- JSON-like values: the universe of Stingray pool property trees.
Python dictionaries are embedded as association lists in iteration order. -/
inductive JVal where
  | null : JVal
  | bool : Bool → JVal
  | num : Int → JVal
  | str : String → JVal
  | obj : List (String × JVal) → JVal
  | arr : List JVal → JVal

mutual

/-- Structural equality on JSON values, embedding Python `==` / `!=`
on the values the diff compares. -/
def jbeq : JVal → JVal → Bool
  | JVal.null, JVal.null => true
  | JVal.bool a, JVal.bool b => a == b
  | JVal.num a, JVal.num b => a == b
  | JVal.str a, JVal.str b => a == b
  | JVal.obj f, JVal.obj g => jbeqFields f g
  | JVal.arr a, JVal.arr b => jbeqList a b
  | _, _ => false

/-- Equality on dictionary field lists. -/
def jbeqFields : List (String × JVal) → List (String × JVal) → Bool
  | [], [] => true
  | (k1, v1) :: r1, (k2, v2) :: r2 => k1 == k2 && jbeq v1 v2 && jbeqFields r1 r2
  | _, _ => false

/-- Equality on JSON array element lists. -/
def jbeqList : List JVal → List JVal → Bool
  | [], [] => true
  | v1 :: r1, v2 :: r2 => jbeq v1 v2 && jbeqList r1 r2
  | _, _ => false

end

/-- Python `d.get(k, None)`: the first value stored under `k`,
or `None` when the key is missing. -/
def dictGet (fields : List (String × JVal)) (k : String) : JVal :=
  match fields.find? (fun p => p.1 == k) with
  | some p => p.2
  | none => JVal.null

/-- `StingrayPool.__init__` line 73: strip the top-level keys of the
desired properties whose value is `None`
(`dict((k,v) for k,v in properties.iteritems() if v is not None)`). -/
def nonEmptyProps (props : List (String × JVal)) : List (String × JVal) :=
  props.filter (fun p => !(jbeq p.2 JVal.null))

/-- One entry of the Change Record produced by the pool diff:
`{path: {'before': before, 'after': after}}`. -/
structure PoolChange where
  path : String
  before : JVal
  after : JVal

/-- `StingrayPool._pool_changes(new_pool, current_pool, parent)`,
lines 102-115.  Iterates the desired keys in order; skips a key whose
current counterpart is missing or `None`; recurses on dictionary-valued
desired keys passing the bare key as the new `parent`; records a change
entry on unequal leaves, with path `k` when `parent` is empty and
`parent + "." + k` otherwise.  `current_pool.get` on a non-dictionary
raises (Python `AttributeError`), embedded as `Except.error ()`. -/
def poolChanges : List (String × JVal) → JVal → String → Except Unit (List PoolChange)
  | [], _, _ => Except.ok []
  | (k, v) :: rest, cur, parent =>
    match cur with
    | JVal.obj curF =>
      let c := dictGet curF k
      if jbeq c JVal.null then
        poolChanges rest cur parent
      else
        match v with
        | JVal.obj vF => do
          let sub ← poolChanges vF c k
          let more ← poolChanges rest cur parent
          Except.ok (sub ++ more)
        | _ =>
          if jbeq v c then
            poolChanges rest cur parent
          else do
            let more ← poolChanges rest cur parent
            Except.ok ({ path := if parent == "" then k else parent ++ "." ++ k,
                         before := c, after := v } :: more)
    | _ => Except.error ()

/-- An HTTP response as the modules see it: the status code, the raw
body text, and the result of `json.loads` on the body (`none` when the
body is not valid JSON). -/
structure HttpResp where
  status : Nat
  text : String
  parsed : Option JVal

/-- A write issued to the REST API by the pool module. -/
inductive WriteCall where
  | putBody : JVal → WriteCall
  | delete : WriteCall

/-- The value the pool module passes to `fail_json` / stores in
`self.msg`: either the `changes` dictionary built from the pool name
(with optional `action` and `error` keys), or the list returned by
`_pool_changes` (the update path rebinds `changes` to that list), or
the text of a raised Python exception caught in `main`. -/
inductive PoolMsg where
  | dict : String → Option String → Option String → PoolMsg
  | changeList : List PoolChange → PoolMsg
  | text : String → PoolMsg

/-- Outcome of one pool-module method call: whether `fail_json` was hit
(and with what message), the `changed` flag, `self.msg`, the writes
issued to the API, and the final `self.pool_data`. -/
structure PoolRun where
  fatal : Option PoolMsg
  changed : Bool
  msg : PoolMsg
  writes : List WriteCall
  data : JVal

/-- Python `v[k]` on a JSON value: the stored value, or an error
(`KeyError` / `TypeError`) when the key is missing or `v` is not a
dictionary. -/
def pyIndex (v : JVal) (k : String) : Except Unit JVal :=
  match v with
  | JVal.obj f =>
    match f.find? (fun p => p.1 == k) with
    | some p => Except.ok p.2
    | none => Except.error ()
  | _ => Except.error ()

/-- `StingrayPool.set_absent` (lines 117-138).  `poolFound` is
`self.exists`, `data0` is the fetched `self.pool_data`, `resp` the
response to the DELETE (consulted only when a DELETE is issued). -/
def poolSetAbsent (poolFound : Bool) (pool : String) (data0 : JVal)
    (checkMode : Bool) (resp : HttpResp) : PoolRun :=
  if poolFound then
    let msg1 := PoolMsg.dict pool (some "destroy_pool") none
    if checkMode then
      { fatal := none, changed := true, msg := msg1, writes := [], data := data0 }
    else if resp.status == 204 then
      { fatal := none, changed := true, msg := msg1,
        writes := [WriteCall.delete], data := data0 }
    else
      { fatal := some (PoolMsg.dict pool (some "destroy_pool") (some resp.text)),
        changed := true, msg := msg1, writes := [WriteCall.delete], data := data0 }
  else
    { fatal := none, changed := false, msg := PoolMsg.dict pool none none,
      writes := [], data := data0 }

/-- `StingrayPool.set_present` (lines 140-192).  `props` is
`self.properties` (already filtered by `nonEmptyProps` in `__init__`),
`api` maps the JSON body of a PUT to the API's response.  On the create
path a non-201 status attaches the raw body to the failure message; on
the update path a non-200 status calls `fail_json` with the bare change
list (line 192 attaches no `error` key). -/
def poolSetPresent (poolFound : Bool) (pool : String)
    (props : List (String × JVal)) (data0 : JVal) (checkMode : Bool)
    (api : JVal → HttpResp) : PoolRun :=
  if !poolFound then
    let msg1 := PoolMsg.dict pool (some "create_pool") none
    if checkMode then
      { fatal := none, changed := true, msg := msg1, writes := [], data := data0 }
    else
      let body :=
        if props.isEmpty then
          JVal.obj [("properties", JVal.obj [("basic", JVal.obj [])])]
        else
          JVal.obj [("properties", JVal.obj props)]
      let resp := api body
      if resp.status == 201 then
        match resp.parsed with
        | some d =>
          { fatal := none, changed := true, msg := msg1,
            writes := [WriteCall.putBody body], data := d }
        | none =>
          { fatal := some (PoolMsg.text "ValueError"), changed := true,
            msg := msg1, writes := [WriteCall.putBody body], data := data0 }
      else
        { fatal := some (PoolMsg.dict pool (some "create_pool") (some resp.text)),
          changed := true, msg := msg1, writes := [WriteCall.putBody body],
          data := data0 }
  else
    match pyIndex data0 "properties" with
    | Except.error _ =>
      { fatal := some (PoolMsg.text "KeyError"), changed := false,
        msg := PoolMsg.dict pool none none, writes := [], data := data0 }
    | Except.ok curProps =>
      match poolChanges props curProps "" with
      | Except.error _ =>
        { fatal := some (PoolMsg.text "AttributeError"), changed := false,
          msg := PoolMsg.dict pool none none, writes := [], data := data0 }
      | Except.ok cs =>
        let chg := !cs.isEmpty
        let msg1 := PoolMsg.changeList cs
        if checkMode then
          { fatal := none, changed := chg, msg := msg1, writes := [], data := data0 }
        else if chg then
          let body := JVal.obj [("properties", JVal.obj props)]
          let resp := api body
          if resp.status == 200 then
            match resp.parsed with
            | some d =>
              { fatal := none, changed := true, msg := msg1,
                writes := [WriteCall.putBody body], data := d }
            | none =>
              { fatal := some (PoolMsg.text "ValueError"), changed := true,
                msg := msg1, writes := [WriteCall.putBody body], data := data0 }
          else
            { fatal := some (PoolMsg.changeList cs), changed := true,
              msg := msg1, writes := [WriteCall.putBody body], data := data0 }
        else
          { fatal := none, changed := false, msg := msg1, writes := [], data := data0 }

/-- The state a faithful remote API stores after a sequence of pool
writes: a PUT stores exactly the body written, a DELETE removes the
pool. -/
def poolRemoteAfter (remote : Option JVal) (ws : List WriteCall) : Option JVal :=
  ws.foldl
    (fun r w =>
      match w with
      | WriteCall.putBody b => some b
      | WriteCall.delete => (fun _ => none) r)
    remote

/-- A faithful remote API for the pool module: a PUT succeeds with the
per-operation success status (201 when the pool was absent and is being
created, 200 for an update) and answers with the body it stored. -/
def faithfulPoolApi (remote : Option JVal) : JVal → HttpResp :=
  fun body =>
    { status := if remote.isSome then 200 else 201, text := "", parsed := some body }

/-- One full real (non-check-mode) pool reconciliation against a
faithful remote storing `remote`: fetch, filter the desired
properties, then `set_present` or `set_absent`. -/
def poolInvoke (present : Bool) (props : List (String × JVal))
    (remote : Option JVal) : PoolRun :=
  let data0 := remote.getD (JVal.obj [("error", JVal.str "not found")])
  if present then
    poolSetPresent remote.isSome "pool" (nonEmptyProps props) data0 false
      (faithfulPoolApi remote)
  else
    poolSetAbsent remote.isSome "pool" data0 false
      { status := 204, text := "", parsed := none }

/-- Result of `StingrayPool.__init__` after the GET (lines 87-100):
either `fail_json` fired, or the module is ready with `self.exists`
and the parsed `self.pool_data`. -/
inductive InitResult where
  | fatal : InitResult
  | ready : Bool → JVal → InitResult

/-- `StingrayPool.__init__` lines 87-100: `self.exists` is set to
`True`, reset to `False` on a 404 status, and the response body is
always fed to `json.loads`, whose failure is fatal regardless of the
status. -/
def poolInit (status : Nat) (parsed : Option JVal) : InitResult :=
  let found := !(status == 404)
  match parsed with
  | none => InitResult.fatal
  | some d => InitResult.ready found d

/-- One entry of a pool's `nodes_table`. -/
structure NodeRec where
  node : String
  state : String
  weight : Int
  priority : Int
deriving DecidableEq

/-- The desired node state handed to `StingrayNode`: the address and
the three independently optional fields. -/
structure NodeDesired where
  node : String
  lbState : Option String
  weight : Option Int
  priority : Option Int

/-- Python truthiness of an optional string (`None` and `''` are
falsy). -/
def truthyS : Option String → Bool
  | none => false
  | some s => !(s == "")

/-- Python truthiness of an optional integer (`None` and `0` are
falsy). -/
def truthyI : Option Int → Bool
  | none => false
  | some n => !(n == 0)

/-- Python `x or d` for an optional string. -/
def orDefaultS (o : Option String) (d : String) : String :=
  if truthyS o then o.getD d else d

/-- Python `x or d` for an optional integer. -/
def orDefaultI (o : Option Int) (d : Int) : Int :=
  if truthyI o then o.getD d else d

/-- The `changes` dictionary the node module reports: node and pool
names, the optional `action` key, one optional before/after pair per
field, and the optional `error` key. -/
structure NodeMsg where
  node : String
  pool : String
  action : Option String
  stateChange : Option (String × String)
  weightChange : Option (Int × Int)
  priorityChange : Option (Int × Int)
  error : Option String
deriving DecidableEq

/-- The `changes` dictionary as first built: just the node and pool
names. -/
def baseNodeMsg (node pool : String) : NodeMsg :=
  { node := node, pool := pool, action := none, stateChange := none,
    weightChange := none, priorityChange := none, error := none }

/-- What `fail_json` receives in the node module: the `changes`
dictionary, or the text of a Python exception caught in `main`. -/
inductive NodeFail where
  | dict : NodeMsg → NodeFail
  | text : String → NodeFail

/-- Python positional `str.format` argument lookup: `"{i}"` picks
argument `i` and raises `IndexError` when it does not exist. -/
def formatIndex (args : List String) (i : Nat) : Except Unit String :=
  match args.get? i with
  | some s => Except.ok s
  | none => Except.error ()

/-- The node module's error string `"HTTP {2}".format(response.status_code)`:
index 2 into a single-element argument tuple, so the lookup raises
`IndexError` before any message is built. -/
def nodeHttpError (status : Nat) : Except Unit String :=
  match formatIndex [toString status] 2 with
  | Except.ok s => Except.ok ("HTTP " ++ s)
  | Except.error e => Except.error e

/-- The response to a node-table PUT: status code and the table held in
the parsed response body. -/
structure NodeApiResp where
  status : Nat
  newTable : List NodeRec

/-- A faithful remote API for the node module: the PUT succeeds with
status 200 and answers with the table it stored. -/
def faithfulNodeApi : List NodeRec → NodeApiResp :=
  fun t => { status := 200, newTable := t }

/-- `self._get_current_node()[0]`: the first table entry whose address
matches. -/
def firstMatch (table : List NodeRec) (addr : String) : Option NodeRec :=
  (table.filter (fun n => n.node == addr)).head?

/-- In-place mutation of the first matching entry, as Python's aliasing
of `current_node` into `pool_data` does. -/
def mutateFirst : List NodeRec → String → NodeRec → List NodeRec
  | [], _, _ => []
  | n :: rest, addr, repl =>
    if n.node == addr then repl :: rest else n :: mutateFirst rest addr repl

/-- Line 196: the guard of the `state` comparison, `self.desired_lb_state
and self.desired_lb_state != current_node['state']`. -/
def sDiff (d : NodeDesired) (cn : NodeRec) : Bool :=
  truthyS d.lbState && !(d.lbState.getD "" == cn.state)

/-- Line 201: the guard of the `weight` comparison. -/
def wDiff (d : NodeDesired) (cn : NodeRec) : Bool :=
  truthyI d.weight && !(d.weight.getD 0 == cn.weight)

/-- Line 206: the guard of the `priority` comparison. -/
def pDiff (d : NodeDesired) (cn : NodeRec) : Bool :=
  truthyI d.priority && !(d.priority.getD 0 == cn.priority)

/-- Line 198: mutate `state` when its guard holds. -/
def nstate (d : NodeDesired) (cn : NodeRec) : NodeRec :=
  if sDiff d cn then { cn with state := d.lbState.getD "" } else cn

/-- Line 203: mutate `weight` when its guard holds. -/
def nweight (d : NodeDesired) (cn : NodeRec) : NodeRec :=
  if wDiff d cn then { cn with weight := d.weight.getD 0 } else cn

/-- Line 208: mutate `priority` when its guard holds. -/
def npriority (d : NodeDesired) (cn : NodeRec) : NodeRec :=
  if pDiff d cn then { cn with priority := d.priority.getD 0 } else cn

/-- The matched node after the three sequential field mutations of
`StingrayNode.set_present` (lines 196-209). -/
def applyDesired (d : NodeDesired) (cn : NodeRec) : NodeRec :=
  npriority d (nweight d (nstate d cn))

/-- Whether any of the three sequential comparisons fires, i.e. the
final value of `self.changed` on the node-exists path. -/
def desiredDiffers (d : NodeDesired) (cn : NodeRec) : Bool :=
  sDiff d cn || wDiff d (nstate d cn) || pDiff d (nweight d (nstate d cn))

/-- The `changes` dictionary after the three comparisons: one
before/after pair per field whose guard fired, with the before value
read from the (sequentially mutated) node. -/
def nodeChangesMsg (d : NodeDesired) (cn : NodeRec) (m : NodeMsg) : NodeMsg :=
  let m1 := if sDiff d cn then
    { m with stateChange := some (cn.state, d.lbState.getD "") } else m
  let cn1 := nstate d cn
  let m2 := if wDiff d cn1 then
    { m1 with weightChange := some (cn1.weight, d.weight.getD 0) } else m1
  let cn2 := nweight d cn1
  if pDiff d cn2 then
    { m2 with priorityChange := some (cn2.priority, d.priority.getD 0) } else m2

/-- Outcome of one node-module method call: the optional `fail_json`
message, the `changed` flag, `self.msg`, the node tables PUT to the
API, and the final in-memory `nodes_table` held in `self.pool_data`. -/
structure NodeRun where
  fatal : Option NodeFail
  changed : Bool
  msg : NodeMsg
  writes : List (List NodeRec)
  table : List NodeRec

/-- `StingrayNode.set_absent` (lines 137-162).  `table` is the fetched
`nodes_table`; `api` answers the PUT of a rewritten table. -/
def nodeSetAbsent (d : NodeDesired) (pool : String) (table : List NodeRec)
    (checkMode : Bool) (api : List NodeRec → NodeApiResp) : NodeRun :=
  let m0 := baseNodeMsg d.node pool
  if table.any (fun n => n.node == d.node) then
    let m1 := { m0 with action := some "remove_node" }
    if checkMode then
      { fatal := none, changed := true, msg := m1, writes := [], table := table }
    else
      let newNodes := table.filter (fun n => !(n.node == d.node))
      let resp := api newNodes
      if resp.status == 200 then
        { fatal := none, changed := true, msg := m1, writes := [newNodes],
          table := resp.newTable }
      else
        match nodeHttpError resp.status with
        | Except.ok e =>
          { fatal := some (NodeFail.dict { m1 with error := some e }),
            changed := true, msg := m1, writes := [newNodes], table := table }
        | Except.error _ =>
          { fatal := some (NodeFail.text "tuple index out of range"),
            changed := true, msg := m1, writes := [newNodes], table := table }
  else
    { fatal := none, changed := false, msg := m0, writes := [], table := table }

/-- `StingrayNode.set_present` (lines 164-227).  When the node is
absent it is appended with Python `or` defaults; when present the three
fields are compared sequentially, the matched entry is mutated in place
through the alias into `pool_data`, and on any change the whole table
is rewritten with the mutated entry filtered out of its position and
appended at the end. -/
def nodeSetPresent (d : NodeDesired) (pool : String) (table : List NodeRec)
    (checkMode : Bool) (api : List NodeRec → NodeApiResp) : NodeRun :=
  let m0 := baseNodeMsg d.node pool
  if !(table.any (fun n => n.node == d.node)) then
    let m1 := { m0 with action := some "add_node" }
    if checkMode then
      { fatal := none, changed := true, msg := m1, writes := [], table := table }
    else
      let newNodes := table ++
        [{ node := d.node, state := orDefaultS d.lbState "active",
           weight := orDefaultI d.weight 1, priority := orDefaultI d.priority 1 }]
      let resp := api newNodes
      if resp.status == 200 then
        { fatal := none, changed := true, msg := m1, writes := [newNodes],
          table := resp.newTable }
      else
        match nodeHttpError resp.status with
        | Except.ok e =>
          { fatal := some (NodeFail.dict { m1 with error := some e }),
            changed := true, msg := m1, writes := [newNodes], table := table }
        | Except.error _ =>
          { fatal := some (NodeFail.text "tuple index out of range"),
            changed := true, msg := m1, writes := [newNodes], table := table }
  else
    let cn0 := (firstMatch table d.node).getD { node := d.node, state := "", weight := 0, priority := 0 }
    let cn3 := applyDesired d cn0
    let m3 := nodeChangesMsg d cn0 m0
    let tableInPlace := mutateFirst table d.node cn3
    if desiredDiffers d cn0 then
      if checkMode then
        { fatal := none, changed := true, msg := m3, writes := [],
          table := tableInPlace }
      else
        let newNodes := tableInPlace.filter (fun n => !(n.node == d.node)) ++ [cn3]
        let resp := api newNodes
        if resp.status == 200 then
          { fatal := none, changed := true, msg := m3, writes := [newNodes],
            table := resp.newTable }
        else
          match nodeHttpError resp.status with
          | Except.ok e =>
            { fatal := some (NodeFail.dict { m3 with error := some e }),
              changed := true, msg := m3, writes := [newNodes],
              table := tableInPlace }
          | Except.error _ =>
            { fatal := some (NodeFail.text "tuple index out of range"),
              changed := true, msg := m3, writes := [newNodes],
              table := tableInPlace }
    else
      { fatal := none, changed := false, msg := m3, writes := [], table := table }

/-- One full real (non-check-mode) node reconciliation against a
faithful remote whose pool holds `table`. -/
def nodeInvoke (present : Bool) (d : NodeDesired) (table : List NodeRec) : NodeRun :=
  if present then nodeSetPresent d "pool" table false faithfulNodeApi
  else nodeSetAbsent d "pool" table false faithfulNodeApi

mutual

/-- A property tree is well formed when every dictionary in it has
pairwise distinct keys, as every Python dictionary does. -/
def wfVal : JVal → Bool
  | JVal.obj f => wfFields f
  | _ => true

/-- Well-formedness of a dictionary field list. -/
def wfFields : List (String × JVal) → Bool
  | [] => true
  | (k, v) :: rest => !(rest.any (fun p => p.1 == k)) && wfVal v && wfFields rest

end

/-- The shape precondition of the recursive diff: whenever a desired
value is a dictionary and its current counterpart is not `None`, the
current counterpart is itself a dictionary, recursively. -/
def shapeOk : List (String × JVal) → JVal → Bool
  | [], _ => true
  | (k, v) :: rest, cur =>
    match cur with
    | JVal.obj curF =>
      (match v with
       | JVal.obj vF =>
         let c := dictGet curF k
         if jbeq c JVal.null then true
         else
           match c with
           | JVal.obj _ => shapeOk vF c
           | _ => false
       | _ => true) && shapeOk rest cur
    | _ => false

/-- Whether a pool failure message carries a given raw response body
(only the `changes` dictionary's `error` key can carry it). -/
def poolMsgCarriesBody (m : PoolMsg) (body : String) : Bool :=
  match m with
  | PoolMsg.dict _ _ (some e) => e == body
  | _ => false

/-- The in-memory `nodes_table` after the in-place field mutations of
`StingrayNode.set_present`, before (or without) any write: the first
matched entry carries the mutated fields at its original position. -/
def inPlaceTable (d : NodeDesired) (table : List NodeRec) : List NodeRec :=
  match firstMatch table d.node with
  | some cn =>
    if desiredDiffers d cn then mutateFirst table d.node (applyDesired d cn) else table
  | none => table

mutual

theorem jbeq_refl : (v : JVal) → jbeq v v = true
  | JVal.null => rfl
  | JVal.bool b => by simp [jbeq]
  | JVal.num n => by simp [jbeq]
  | JVal.str s => by simp [jbeq]
  | JVal.obj f => by simp only [jbeq]; exact jbeqFields_refl f
  | JVal.arr l => by simp only [jbeq]; exact jbeqList_refl l

theorem jbeqFields_refl : (f : List (String × JVal)) → jbeqFields f f = true
  | [] => rfl
  | (k, v) :: r => by
    simp only [jbeqFields, Bool.and_eq_true]
    exact ⟨⟨by simp, jbeq_refl v⟩, jbeqFields_refl r⟩

theorem jbeqList_refl : (l : List JVal) → jbeqList l l = true
  | [] => rfl
  | v :: r => by
    simp only [jbeqList, Bool.and_eq_true]
    exact ⟨jbeq_refl v, jbeqList_refl r⟩

end

theorem dictGet_self_of_wf (g : List (String × JVal)) (hg : wfFields g = true)
    (k : String) (v : JVal) (hv : (k, v) ∈ g) : dictGet g k = v := by
  induction g with
  | nil => cases hv
  | cons p rest ih =>
    obtain ⟨k0, v0⟩ := p
    simp only [wfFields, Bool.and_eq_true] at hg
    rcases List.mem_cons.mp hv with h | h
    · cases h
      simp [dictGet, List.find?]
    · by_cases hk : k0 == k
      · exfalso
        have : rest.any (fun p => p.1 == k0) = true := by
          refine List.any_eq_true.mpr ⟨(k, v), h, ?_⟩
          have : k0 = k := by simpa using hk
          simp [this]
        simp [this] at hg
      · have := ih hg.2 h
        simpa [dictGet, List.find?, hk] using this

theorem wfVal_dictGet (g : List (String × JVal)) (hg : wfFields g = true)
    (k : String) : wfVal (dictGet g k) = true := by
  induction g with
  | nil => simp [dictGet, List.find?, wfVal]
  | cons p rest ih =>
    obtain ⟨k0, v0⟩ := p
    simp only [wfFields, Bool.and_eq_true] at hg
    by_cases hk : k0 == k
    · simpa [dictGet, List.find?, hk] using hg.1.2
    · have := ih hg.2
      simpa [dictGet, List.find?, hk] using this

theorem orDefaultS_truthy (o : Option String) (x : String) (h : truthyS o = true) :
    orDefaultS o x = o.getD "" := by
  cases o with
  | none => simp [truthyS] at h
  | some s => simp [orDefaultS, h]

theorem orDefaultI_truthy (o : Option Int) (x : Int) (h : truthyI o = true) :
    orDefaultI o x = o.getD 0 := by
  cases o with
  | none => simp [truthyI] at h
  | some n => simp [orDefaultI, h]

theorem nstate_keeps_node (d : NodeDesired) (cn : NodeRec) :
    (nstate d cn).node = cn.node := by
  unfold nstate; split <;> rfl

theorem nstate_keeps_weight (d : NodeDesired) (cn : NodeRec) :
    (nstate d cn).weight = cn.weight := by
  unfold nstate; split <;> rfl

theorem nstate_keeps_priority (d : NodeDesired) (cn : NodeRec) :
    (nstate d cn).priority = cn.priority := by
  unfold nstate; split <;> rfl

theorem nweight_keeps_node (d : NodeDesired) (cn : NodeRec) :
    (nweight d cn).node = cn.node := by
  unfold nweight; split <;> rfl

theorem nweight_keeps_state (d : NodeDesired) (cn : NodeRec) :
    (nweight d cn).state = cn.state := by
  unfold nweight; split <;> rfl

theorem nweight_keeps_priority (d : NodeDesired) (cn : NodeRec) :
    (nweight d cn).priority = cn.priority := by
  unfold nweight; split <;> rfl

theorem npriority_keeps_node (d : NodeDesired) (cn : NodeRec) :
    (npriority d cn).node = cn.node := by
  unfold npriority; split <;> rfl

theorem npriority_keeps_state (d : NodeDesired) (cn : NodeRec) :
    (npriority d cn).state = cn.state := by
  unfold npriority; split <;> rfl

theorem npriority_keeps_weight (d : NodeDesired) (cn : NodeRec) :
    (npriority d cn).weight = cn.weight := by
  unfold npriority; split <;> rfl

theorem nstate_sets (d : NodeDesired) (cn : NodeRec) (h : truthyS d.lbState = true) :
    (nstate d cn).state = d.lbState.getD "" := by
  unfold nstate sDiff
  by_cases he : (d.lbState.getD "" == cn.state) = true
  · simp only [he, Bool.not_true, Bool.and_false, Bool.false_eq_true, if_false]
    exact (eq_of_beq he).symm
  · simp only [Bool.not_eq_true] at he
    simp [h, he]

theorem nweight_sets (d : NodeDesired) (cn : NodeRec) (h : truthyI d.weight = true) :
    (nweight d cn).weight = d.weight.getD 0 := by
  unfold nweight wDiff
  by_cases he : (d.weight.getD 0 == cn.weight) = true
  · simp only [he, Bool.not_true, Bool.and_false, Bool.false_eq_true, if_false]
    exact (eq_of_beq he).symm
  · simp only [Bool.not_eq_true] at he
    simp [h, he]

theorem npriority_sets (d : NodeDesired) (cn : NodeRec) (h : truthyI d.priority = true) :
    (npriority d cn).priority = d.priority.getD 0 := by
  unfold npriority pDiff
  by_cases he : (d.priority.getD 0 == cn.priority) = true
  · simp only [he, Bool.not_true, Bool.and_false, Bool.false_eq_true, if_false]
    exact (eq_of_beq he).symm
  · simp only [Bool.not_eq_true] at he
    simp [h, he]

theorem applyDesired_node (d : NodeDesired) (cn : NodeRec) :
    (applyDesired d cn).node = cn.node := by
  unfold applyDesired
  rw [npriority_keeps_node, nweight_keeps_node, nstate_keeps_node]

theorem applyDesired_state (d : NodeDesired) (cn : NodeRec)
    (h : truthyS d.lbState = true) :
    (applyDesired d cn).state = d.lbState.getD "" := by
  unfold applyDesired
  rw [npriority_keeps_state, nweight_keeps_state, nstate_sets _ _ h]

theorem applyDesired_weight (d : NodeDesired) (cn : NodeRec)
    (h : truthyI d.weight = true) :
    (applyDesired d cn).weight = d.weight.getD 0 := by
  unfold applyDesired
  rw [npriority_keeps_weight, nweight_sets _ _ h]

theorem applyDesired_priority (d : NodeDesired) (cn : NodeRec)
    (h : truthyI d.priority = true) :
    (applyDesired d cn).priority = d.priority.getD 0 := by
  unfold applyDesired
  rw [npriority_sets _ _ h]

theorem sDiff_false (d : NodeDesired) (cn : NodeRec)
    (h : truthyS d.lbState = true → d.lbState.getD "" = cn.state) :
    sDiff d cn = false := by
  unfold sDiff
  by_cases ht : truthyS d.lbState = true
  · simp [ht, h ht]
  · simp only [Bool.not_eq_true] at ht
    simp [ht]

theorem wDiff_false (d : NodeDesired) (cn : NodeRec)
    (h : truthyI d.weight = true → d.weight.getD 0 = cn.weight) :
    wDiff d cn = false := by
  unfold wDiff
  by_cases ht : truthyI d.weight = true
  · simp [ht, h ht]
  · simp only [Bool.not_eq_true] at ht
    simp [ht]

theorem pDiff_false (d : NodeDesired) (cn : NodeRec)
    (h : truthyI d.priority = true → d.priority.getD 0 = cn.priority) :
    pDiff d cn = false := by
  unfold pDiff
  by_cases ht : truthyI d.priority = true
  · simp [ht, h ht]
  · simp only [Bool.not_eq_true] at ht
    simp [ht]

theorem desiredDiffers_false (d : NodeDesired) (cn : NodeRec)
    (hs : truthyS d.lbState = true → d.lbState.getD "" = cn.state)
    (hw : truthyI d.weight = true → d.weight.getD 0 = cn.weight)
    (hp : truthyI d.priority = true → d.priority.getD 0 = cn.priority) :
    desiredDiffers d cn = false := by
  have h1 : sDiff d cn = false := sDiff_false _ _ hs
  have e1 : nstate d cn = cn := by unfold nstate; simp [h1]
  have h2 : wDiff d cn = false := wDiff_false _ _ hw
  have e2 : nweight d cn = cn := by unfold nweight; simp [h2]
  have h3 : pDiff d cn = false := pDiff_false _ _ hp
  unfold desiredDiffers
  rw [e1, h1, h2, e2, h3]
  rfl

theorem applyDesired_idem (d : NodeDesired) (cn : NodeRec) :
    desiredDiffers d (applyDesired d cn) = false :=
  desiredDiffers_false _ _
    (fun h => (applyDesired_state d cn h).symm)
    (fun h => (applyDesired_weight d cn h).symm)
    (fun h => (applyDesired_priority d cn h).symm)

theorem any_eq_firstMatch (table : List NodeRec) (a : String) :
    table.any (fun n => n.node == a) = (firstMatch table a).isSome := by
  induction table with
  | nil => rfl
  | cons n rest ih =>
    by_cases h : (n.node == a) = true
    · simp [firstMatch, List.filter_cons, h]
    · simp only [Bool.not_eq_true] at h
      simpa [firstMatch, List.filter_cons, h] using ih

theorem firstMatch_matches (table : List NodeRec) (a : String) (cn : NodeRec)
    (h : firstMatch table a = some cn) : (cn.node == a) = true := by
  have hmem : cn ∈ table.filter (fun n => n.node == a) := by
    unfold firstMatch at h
    cases hf : table.filter (fun n => n.node == a) with
    | nil => rw [hf] at h; cases h
    | cons x xs =>
      rw [hf] at h
      cases h
      exact List.mem_cons_self _ _
  exact (List.mem_filter.mp hmem).2

theorem filter_mutateFirst (table : List NodeRec) (a : String) (repl : NodeRec)
    (h : (repl.node == a) = true) :
    (mutateFirst table a repl).filter (fun n => !(n.node == a)) =
      table.filter (fun n => !(n.node == a)) := by
  induction table with
  | nil => rfl
  | cons n rest ih =>
    by_cases hn : (n.node == a) = true
    · simp [mutateFirst, hn, List.filter_cons, h]
    · simp only [Bool.not_eq_true] at hn
      simp [mutateFirst, hn, List.filter_cons, ih]

theorem firstMatch_rewritten (l : List NodeRec) (a : String) (cn : NodeRec)
    (h : (cn.node == a) = true) :
    firstMatch (l.filter (fun n => !(n.node == a)) ++ [cn]) a = some cn := by
  unfold firstMatch
  rw [List.filter_append, List.filter_filter]
  simp [h]

theorem any_rewritten (l : List NodeRec) (a : String) (cn : NodeRec)
    (h : (cn.node == a) = true) :
    (l.filter (fun n => !(n.node == a)) ++ [cn]).any (fun n => n.node == a) = true := by
  simp [List.any_append, h]

theorem any_filter_out (l : List NodeRec) (a : String) :
    (l.filter (fun n => !(n.node == a))).any (fun n => n.node == a) = false := by
  rw [Bool.eq_false_iff]
  intro hc
  rw [List.any_eq_true] at hc
  obtain ⟨n, hmem, hpred⟩ := hc
  rw [List.mem_filter] at hmem
  simp [hpred] at hmem

theorem firstMatch_append (table : List NodeRec) (a : String) (nn : NodeRec)
    (h : table.any (fun n => n.node == a) = false) (hn : (nn.node == a) = true) :
    firstMatch (table ++ [nn]) a = some nn := by
  unfold firstMatch
  rw [List.filter_append]
  have hnil : table.filter (fun n => n.node == a) = [] := by
    rw [List.filter_eq_nil_iff]
    intro n hmem
    rw [List.any_eq_false] at h
    exact h n hmem
  rw [hnil]
  simp [hn]

theorem poolChanges_agree (f g : List (String × JVal)) (p : String)
    (hg : wfFields g = true) (hf : ∀ k v, (k, v) ∈ f → dictGet g k = v) :
    poolChanges f (JVal.obj g) p = Except.ok [] := by
  match f with
  | [] => rfl
  | (k, v) :: rest =>
    have hkv : dictGet g k = v := hf k v (List.mem_cons_self _ _)
    have hrest : ∀ k v, (k, v) ∈ rest → dictGet g k = v :=
      fun k v h => hf k v (List.mem_cons_of_mem _ h)
    have ihrest := poolChanges_agree rest g p hg hrest
    match v, hkv with
    | JVal.null, hkv =>
      have hn : jbeq (dictGet g k) JVal.null = true := by rw [hkv]; rfl
      simp only [poolChanges, hn, if_true]
      exact ihrest
    | JVal.bool b, hkv =>
      have hn : jbeq (dictGet g k) JVal.null = false := by rw [hkv]; rfl
      have hc : jbeq (JVal.bool b) (dictGet g k) = true := by rw [hkv]; exact jbeq_refl _
      simp only [poolChanges, hn, hc, if_true, Bool.false_eq_true, if_false]
      exact ihrest
    | JVal.num n, hkv =>
      have hn : jbeq (dictGet g k) JVal.null = false := by rw [hkv]; rfl
      have hc : jbeq (JVal.num n) (dictGet g k) = true := by rw [hkv]; exact jbeq_refl _
      simp only [poolChanges, hn, hc, if_true, Bool.false_eq_true, if_false]
      exact ihrest
    | JVal.str s, hkv =>
      have hn : jbeq (dictGet g k) JVal.null = false := by rw [hkv]; rfl
      have hc : jbeq (JVal.str s) (dictGet g k) = true := by rw [hkv]; exact jbeq_refl _
      simp only [poolChanges, hn, hc, if_true, Bool.false_eq_true, if_false]
      exact ihrest
    | JVal.arr l, hkv =>
      have hn : jbeq (dictGet g k) JVal.null = false := by rw [hkv]; rfl
      have hc : jbeq (JVal.arr l) (dictGet g k) = true := by rw [hkv]; exact jbeq_refl _
      simp only [poolChanges, hn, hc, if_true, Bool.false_eq_true, if_false]
      exact ihrest
    | JVal.obj vF, hkv =>
      have hwf : wfFields vF = true := by
        have := wfVal_dictGet g hg k
        rw [hkv] at this
        simpa [wfVal] using this
      have inner := poolChanges_agree vF vF k hwf
        (fun k v h => dictGet_self_of_wf vF hwf k v h)
      have hn : jbeq (dictGet g k) JVal.null = false := by rw [hkv]; rfl
      simp only [poolChanges, hn, Bool.false_eq_true, if_false, hkv, inner, ihrest]
      rfl
termination_by sizeOf f

theorem poolChanges_skip_key (newF : List (String × JVal))
    (curF : List (String × JVal)) (parent k : String)
    (h : dictGet curF k = JVal.null) :
    poolChanges newF (JVal.obj curF) parent =
      poolChanges (newF.filter (fun p => !(p.1 == k))) (JVal.obj curF) parent := by
  induction newF with
  | nil => rfl
  | cons q rest ih =>
    obtain ⟨k1, v1⟩ := q
    by_cases hk : (k1 == k) = true
    · have hk' : k1 = k := eq_of_beq hk
      subst hk'
      have hn : jbeq (dictGet curF k1) JVal.null = true := by rw [h]; rfl
      rw [List.filter_cons]
      simp only [hk, Bool.not_true, Bool.false_eq_true, if_false]
      cases v1 <;> (simp only [poolChanges, hn, if_true]; exact ih)
    · have hkf : (k1 == k) = false := by simpa using hk
      rw [List.filter_cons]
      simp only [hkf, Bool.not_false, if_true]
      cases v1 <;> (simp only [poolChanges]; rw [ih])

theorem poolChanges_total (f : List (String × JVal)) (cur : JVal) (p : String)
    (h : shapeOk f cur = true) : ∃ cs, poolChanges f cur p = Except.ok cs := by
  match f, cur, h with
  | [], _, _ => exact ⟨[], rfl⟩
  | (k, JVal.obj vF) :: rest, JVal.obj curF, h =>
    simp only [shapeOk, Bool.and_eq_true] at h
    obtain ⟨h1, h2⟩ := h
    obtain ⟨cs2, hcs2⟩ := poolChanges_total rest (JVal.obj curF) p h2
    cases hc : dictGet curF k with
    | null => exact ⟨cs2, by simp [poolChanges, hc, jbeq, hcs2]⟩
    | obj cf =>
      rw [hc] at h1
      simp only [jbeq, Bool.false_eq_true, if_false] at h1
      obtain ⟨cs1, hcs1⟩ := poolChanges_total vF (JVal.obj cf) k h1
      refine ⟨cs1 ++ cs2, ?_⟩
      simp only [poolChanges, hc, jbeq, Bool.false_eq_true, if_false]
      rw [hcs1, hcs2]
      rfl
    | bool b => rw [hc] at h1; simp [jbeq] at h1
    | num n => rw [hc] at h1; simp [jbeq] at h1
    | str s => rw [hc] at h1; simp [jbeq] at h1
    | arr l => rw [hc] at h1; simp [jbeq] at h1
  | (k, JVal.null) :: rest, JVal.obj curF, h =>
    simp only [shapeOk, Bool.true_and] at h
    obtain ⟨cs2, hcs2⟩ := poolChanges_total rest (JVal.obj curF) p h
    by_cases jc : jbeq (dictGet curF k) JVal.null = true
    · exact ⟨cs2, by simp [poolChanges, jc, hcs2]⟩
    · have jc' : jbeq (dictGet curF k) JVal.null = false := by simpa using jc
      by_cases je : jbeq JVal.null (dictGet curF k) = true
      · exact ⟨cs2, by simp [poolChanges, jc', je, hcs2]⟩
      · have je' : jbeq JVal.null (dictGet curF k) = false := by simpa using je
        exact ⟨_, by
          simp only [poolChanges, jc', je', Bool.false_eq_true, if_false]
          rw [hcs2]
          rfl⟩
  | (k, JVal.bool b) :: rest, JVal.obj curF, h =>
    simp only [shapeOk, Bool.true_and] at h
    obtain ⟨cs2, hcs2⟩ := poolChanges_total rest (JVal.obj curF) p h
    by_cases jc : jbeq (dictGet curF k) JVal.null = true
    · exact ⟨cs2, by simp [poolChanges, jc, hcs2]⟩
    · have jc' : jbeq (dictGet curF k) JVal.null = false := by simpa using jc
      by_cases je : jbeq (JVal.bool b) (dictGet curF k) = true
      · exact ⟨cs2, by simp [poolChanges, jc', je, hcs2]⟩
      · have je' : jbeq (JVal.bool b) (dictGet curF k) = false := by simpa using je
        exact ⟨_, by
          simp only [poolChanges, jc', je', Bool.false_eq_true, if_false]
          rw [hcs2]
          rfl⟩
  | (k, JVal.num n) :: rest, JVal.obj curF, h =>
    simp only [shapeOk, Bool.true_and] at h
    obtain ⟨cs2, hcs2⟩ := poolChanges_total rest (JVal.obj curF) p h
    by_cases jc : jbeq (dictGet curF k) JVal.null = true
    · exact ⟨cs2, by simp [poolChanges, jc, hcs2]⟩
    · have jc' : jbeq (dictGet curF k) JVal.null = false := by simpa using jc
      by_cases je : jbeq (JVal.num n) (dictGet curF k) = true
      · exact ⟨cs2, by simp [poolChanges, jc', je, hcs2]⟩
      · have je' : jbeq (JVal.num n) (dictGet curF k) = false := by simpa using je
        exact ⟨_, by
          simp only [poolChanges, jc', je', Bool.false_eq_true, if_false]
          rw [hcs2]
          rfl⟩
  | (k, JVal.str s) :: rest, JVal.obj curF, h =>
    simp only [shapeOk, Bool.true_and] at h
    obtain ⟨cs2, hcs2⟩ := poolChanges_total rest (JVal.obj curF) p h
    by_cases jc : jbeq (dictGet curF k) JVal.null = true
    · exact ⟨cs2, by simp [poolChanges, jc, hcs2]⟩
    · have jc' : jbeq (dictGet curF k) JVal.null = false := by simpa using jc
      by_cases je : jbeq (JVal.str s) (dictGet curF k) = true
      · exact ⟨cs2, by simp [poolChanges, jc', je, hcs2]⟩
      · have je' : jbeq (JVal.str s) (dictGet curF k) = false := by simpa using je
        exact ⟨_, by
          simp only [poolChanges, jc', je', Bool.false_eq_true, if_false]
          rw [hcs2]
          rfl⟩
  | (k, JVal.arr l) :: rest, JVal.obj curF, h =>
    simp only [shapeOk, Bool.true_and] at h
    obtain ⟨cs2, hcs2⟩ := poolChanges_total rest (JVal.obj curF) p h
    by_cases jc : jbeq (dictGet curF k) JVal.null = true
    · exact ⟨cs2, by simp [poolChanges, jc, hcs2]⟩
    · have jc' : jbeq (dictGet curF k) JVal.null = false := by simpa using jc
      by_cases je : jbeq (JVal.arr l) (dictGet curF k) = true
      · exact ⟨cs2, by simp [poolChanges, jc', je, hcs2]⟩
      · have je' : jbeq (JVal.arr l) (dictGet curF k) = false := by simpa using je
        exact ⟨_, by
          simp only [poolChanges, jc', je', Bool.false_eq_true, if_false]
          rw [hcs2]
          rfl⟩
  | (k, v) :: rest, JVal.null, h => simp [shapeOk] at h
  | (k, v) :: rest, JVal.bool b, h => simp [shapeOk] at h
  | (k, v) :: rest, JVal.num n, h => simp [shapeOk] at h
  | (k, v) :: rest, JVal.str s, h => simp [shapeOk] at h
  | (k, v) :: rest, JVal.arr l, h => simp [shapeOk] at h
termination_by sizeOf f

theorem poolSetPresent_no_diff (p : String) (fp X : List (String × JVal))
    (api : JVal → HttpResp)
    (hdiff : poolChanges fp (JVal.obj X) "" = Except.ok []) :
    (poolSetPresent true p fp (JVal.obj [("properties", JVal.obj X)]) false api).changed = false := by
  have hidx : pyIndex (JVal.obj [("properties", JVal.obj X)]) "properties" =
      Except.ok (JVal.obj X) := by
    simp [pyIndex, List.find?]
  simp [poolSetPresent, hidx, hdiff]

theorem poolInvoke_second_unchanged (present : Bool) (props : List (String × JVal))
    (remote : Option JVal)
    (hwf : wfFields (nonEmptyProps props) = true)
    (hok : (poolInvoke present props remote).fatal = none) :
    (poolInvoke present props
        (poolRemoteAfter remote (poolInvoke present props remote).writes)).changed = false := by
  cases present with
  | false =>
    cases remote with
    | none => simp [poolInvoke, poolSetAbsent, poolRemoteAfter]
    | some r => simp [poolInvoke, poolSetAbsent, poolRemoteAfter]
  | true =>
    cases remote with
    | none =>
      by_cases hemp : (nonEmptyProps props).isEmpty = true
      · have hfpnil : nonEmptyProps props = [] := by
          simpa [List.isEmpty_iff] using hemp
        have step1 : poolRemoteAfter none (poolInvoke true props none).writes =
            some (JVal.obj [("properties", JVal.obj [("basic", JVal.obj [])])]) := by
          simp [poolInvoke, poolSetPresent, faithfulPoolApi, poolRemoteAfter, hemp]
        rw [step1]
        have := poolSetPresent_no_diff "pool" (nonEmptyProps props) [("basic", JVal.obj [])]
          (faithfulPoolApi (some (JVal.obj [("properties", JVal.obj [("basic", JVal.obj [])])])))
          (by rw [hfpnil]; rfl)
        simpa [poolInvoke] using this
      · have hemp' : (nonEmptyProps props).isEmpty = false := by simpa using hemp
        have step1 : poolRemoteAfter none (poolInvoke true props none).writes =
            some (JVal.obj [("properties", JVal.obj (nonEmptyProps props))]) := by
          simp [poolInvoke, poolSetPresent, faithfulPoolApi, poolRemoteAfter, hemp']
        rw [step1]
        have hagree := poolChanges_agree (nonEmptyProps props) (nonEmptyProps props) "" hwf
          (fun k v h => dictGet_self_of_wf _ hwf k v h)
        have := poolSetPresent_no_diff "pool" (nonEmptyProps props) (nonEmptyProps props)
          (faithfulPoolApi (some (JVal.obj [("properties", JVal.obj (nonEmptyProps props))])))
          hagree
        simpa [poolInvoke] using this
    | some r =>
      cases hidx : pyIndex r "properties" with
      | error e =>
        exfalso
        simp [poolInvoke, poolSetPresent, hidx] at hok
      | ok curP =>
        cases hdf : poolChanges (nonEmptyProps props) curP "" with
        | error e =>
          exfalso
          simp [poolInvoke, poolSetPresent, hidx, hdf] at hok
        | ok cs =>
          by_cases hcs : cs.isEmpty = true
          · have hnil : cs = [] := by simpa [List.isEmpty_iff] using hcs
            subst hnil
            have hwr : (poolInvoke true props (some r)).writes = [] := by
              simp [poolInvoke, poolSetPresent, hidx, hdf]
            rw [hwr]
            have hrem : poolRemoteAfter (some r) ([] : List WriteCall) = some r := rfl
            rw [hrem]
            simp [poolInvoke, poolSetPresent, hidx, hdf]
          · have hcs' : cs.isEmpty = false := by simpa using hcs
            have hwr : poolRemoteAfter (some r) (poolInvoke true props (some r)).writes =
                some (JVal.obj [("properties", JVal.obj (nonEmptyProps props))]) := by
              simp [poolInvoke, poolSetPresent, hidx, hdf, hcs', faithfulPoolApi,
                poolRemoteAfter]
            rw [hwr]
            have hagree := poolChanges_agree (nonEmptyProps props) (nonEmptyProps props) "" hwf
              (fun k v h => dictGet_self_of_wf _ hwf k v h)
            have := poolSetPresent_no_diff "pool" (nonEmptyProps props) (nonEmptyProps props)
              (faithfulPoolApi (some (JVal.obj [("properties", JVal.obj (nonEmptyProps props))])))
              hagree
            simpa [poolInvoke] using this

theorem nodeInvoke_second_unchanged (present : Bool) (d : NodeDesired)
    (table : List NodeRec) :
    (nodeInvoke present d (nodeInvoke present d table).table).changed = false := by
  cases present with
  | false =>
    by_cases hex : table.any (fun n => n.node == d.node) = true
    · have h1 : (nodeInvoke false d table).table =
          table.filter (fun n => !(n.node == d.node)) := by
        simp [nodeInvoke, nodeSetAbsent, faithfulNodeApi, hex]
      rw [h1]
      simp [nodeInvoke, nodeSetAbsent, any_filter_out]
    · have hex' : table.any (fun n => n.node == d.node) = false := by simpa using hex
      have h1 : (nodeInvoke false d table).table = table := by
        simp [nodeInvoke, nodeSetAbsent, hex']
      rw [h1]
      simp [nodeInvoke, nodeSetAbsent, hex']
  | true =>
    by_cases hex : table.any (fun n => n.node == d.node) = true
    · have hsome : (firstMatch table d.node).isSome = true := by
        rw [← any_eq_firstMatch]; exact hex
      obtain ⟨cn, hcn⟩ := Option.isSome_iff_exists.mp hsome
      have hmat : (cn.node == d.node) = true := firstMatch_matches _ _ _ hcn
      by_cases hdif : desiredDiffers d cn = true
      · have hcn3 : ((applyDesired d cn).node == d.node) = true := by
          rw [applyDesired_node]; exact hmat
        have h1 : (nodeInvoke true d table).table =
            table.filter (fun n => !(n.node == d.node)) ++ [applyDesired d cn] := by
          simp [nodeInvoke, nodeSetPresent, faithfulNodeApi, hex, hcn, hdif,
            filter_mutateFirst _ _ _ hcn3]
        rw [h1]
        have hex2 := any_rewritten table d.node (applyDesired d cn) hcn3
        have hfm2 := firstMatch_rewritten table d.node (applyDesired d cn) hcn3
        have hnd := applyDesired_idem d cn
        simp [nodeInvoke, nodeSetPresent, hex2, hfm2, hnd]
      · have hdif' : desiredDiffers d cn = false := by simpa using hdif
        have h1 : (nodeInvoke true d table).table = table := by
          simp [nodeInvoke, nodeSetPresent, hex, hcn, hdif']
        rw [h1]
        simp [nodeInvoke, nodeSetPresent, hex, hcn, hdif']
    · have hex' : table.any (fun n => n.node == d.node) = false := by simpa using hex
      have hnn : ((⟨d.node, orDefaultS d.lbState "active", orDefaultI d.weight 1,
          orDefaultI d.priority 1⟩ : NodeRec).node == d.node) = true := by
        simp
      have h1 : (nodeInvoke true d table).table =
          table ++ [(⟨d.node, orDefaultS d.lbState "active", orDefaultI d.weight 1,
            orDefaultI d.priority 1⟩ : NodeRec)] := by
        simp [nodeInvoke, nodeSetPresent, faithfulNodeApi, hex']
      rw [h1]
      have hfm2 := firstMatch_append table d.node _ hex' hnn
      have hex2 : (table ++ [(⟨d.node, orDefaultS d.lbState "active", orDefaultI d.weight 1,
          orDefaultI d.priority 1⟩ : NodeRec)]).any
            (fun n => n.node == d.node) = true := by
        simp [List.any_append]
      have hnd : desiredDiffers d
          (⟨d.node, orDefaultS d.lbState "active", orDefaultI d.weight 1,
            orDefaultI d.priority 1⟩ : NodeRec) = false :=
        desiredDiffers_false _ _
          (fun h => (orDefaultS_truthy _ _ h).symm)
          (fun h => (orDefaultI_truthy _ _ h).symm)
          (fun h => (orDefaultI_truthy _ _ h).symm)
      simp [nodeInvoke, nodeSetPresent, hex2, hfm2, hnd]

theorem poolSetAbsent_real_changed (pool : String) (data0 : JVal) (resp : HttpResp) :
    (poolSetAbsent true pool data0 false resp).changed = true := by
  unfold poolSetAbsent
  by_cases h : (resp.status == 204) = true <;> simp [h]

theorem poolSetAbsent_real_msg (pool : String) (data0 : JVal) (resp : HttpResp) :
    (poolSetAbsent true pool data0 false resp).msg =
      PoolMsg.dict pool (some "destroy_pool") none := by
  unfold poolSetAbsent
  by_cases h : (resp.status == 204) = true <;> simp [h]

theorem poolSetPresent_check_writes (found : Bool) (pool : String)
    (props : List (String × JVal)) (data0 : JVal) (api : JVal → HttpResp) :
    (poolSetPresent found pool props data0 true api).writes = [] := by
  cases found with
  | false => rfl
  | true =>
    cases hidx : pyIndex data0 "properties" with
    | error e => simp [poolSetPresent, hidx]
    | ok curP =>
      cases hdf : poolChanges props curP "" with
      | error e => simp [poolSetPresent, hidx, hdf]
      | ok cs => simp [poolSetPresent, hidx, hdf]

theorem poolSetPresent_check_data (found : Bool) (pool : String)
    (props : List (String × JVal)) (data0 : JVal) (api : JVal → HttpResp) :
    (poolSetPresent found pool props data0 true api).data = data0 := by
  cases found with
  | false => rfl
  | true =>
    cases hidx : pyIndex data0 "properties" with
    | error e => simp [poolSetPresent, hidx]
    | ok curP =>
      cases hdf : poolChanges props curP "" with
      | error e => simp [poolSetPresent, hidx, hdf]
      | ok cs => simp [poolSetPresent, hidx, hdf]

theorem poolSetPresent_real_create_changed (pool : String)
    (props : List (String × JVal)) (data0 : JVal) (api : JVal → HttpResp) :
    (poolSetPresent false pool props data0 false api).changed = true := by
  simp only [poolSetPresent, Bool.not_false, if_true, Bool.false_eq_true, if_false]
  split <;> (try split) <;> (try split)
  all_goals rfl

theorem poolSetPresent_real_create_msg (pool : String)
    (props : List (String × JVal)) (data0 : JVal) (api : JVal → HttpResp) :
    (poolSetPresent false pool props data0 false api).msg =
      PoolMsg.dict pool (some "create_pool") none := by
  simp only [poolSetPresent, Bool.not_false, if_true, Bool.false_eq_true, if_false]
  split <;> (try split) <;> (try split)
  all_goals rfl

theorem poolSetPresent_changed_eq (found : Bool) (pool : String)
    (props : List (String × JVal)) (data0 : JVal) (api api' : JVal → HttpResp) :
    (poolSetPresent found pool props data0 true api).changed =
      (poolSetPresent found pool props data0 false api').changed := by
  cases found with
  | false => rw [poolSetPresent_real_create_changed]; rfl
  | true =>
    cases hidx : pyIndex data0 "properties" with
    | error e => simp [poolSetPresent, hidx]
    | ok curP =>
      cases hdf : poolChanges props curP "" with
      | error e => simp [poolSetPresent, hidx, hdf]
      | ok cs =>
        by_cases hcs : cs.isEmpty = true
        · simp [poolSetPresent, hidx, hdf, hcs]
        · have hcs' : cs.isEmpty = false := by simpa using hcs
          simp only [poolSetPresent, hidx, hdf, hcs', Bool.not_true, Bool.false_eq_true,
            if_false, if_true, Bool.not_false]
          split <;> (try split)
          all_goals rfl

theorem poolSetPresent_msg_eq (found : Bool) (pool : String)
    (props : List (String × JVal)) (data0 : JVal) (api api' : JVal → HttpResp) :
    (poolSetPresent found pool props data0 true api).msg =
      (poolSetPresent found pool props data0 false api').msg := by
  cases found with
  | false => rw [poolSetPresent_real_create_msg]; rfl
  | true =>
    cases hidx : pyIndex data0 "properties" with
    | error e => simp [poolSetPresent, hidx]
    | ok curP =>
      cases hdf : poolChanges props curP "" with
      | error e => simp [poolSetPresent, hidx, hdf]
      | ok cs =>
        by_cases hcs : cs.isEmpty = true
        · simp [poolSetPresent, hidx, hdf, hcs]
        · have hcs' : cs.isEmpty = false := by simpa using hcs
          simp only [poolSetPresent, hidx, hdf, hcs', Bool.not_true, Bool.false_eq_true,
            if_false, if_true, Bool.not_false]
          split <;> (try split)
          all_goals rfl

theorem firstMatch_none_of_any_false (table : List NodeRec) (a : String)
    (h : table.any (fun n => n.node == a) = false) : firstMatch table a = none := by
  cases h' : firstMatch table a with
  | none => rfl
  | some cn =>
    have hiso := any_eq_firstMatch table a
    rw [h, h'] at hiso
    simp at hiso

theorem nodeSetAbsent_check_writes (d : NodeDesired) (pool : String)
    (table : List NodeRec) (api : List NodeRec → NodeApiResp) :
    (nodeSetAbsent d pool table true api).writes = [] := by
  by_cases hex : table.any (fun n => n.node == d.node) = true
  · simp [nodeSetAbsent, hex]
  · have hex' : table.any (fun n => n.node == d.node) = false := by simpa using hex
    simp [nodeSetAbsent, hex']

theorem nodeSetAbsent_check_table (d : NodeDesired) (pool : String)
    (table : List NodeRec) (api : List NodeRec → NodeApiResp) :
    (nodeSetAbsent d pool table true api).table = table := by
  by_cases hex : table.any (fun n => n.node == d.node) = true
  · simp [nodeSetAbsent, hex]
  · have hex' : table.any (fun n => n.node == d.node) = false := by simpa using hex
    simp [nodeSetAbsent, hex']

theorem nodeSetAbsent_changed_eq (d : NodeDesired) (pool : String)
    (table : List NodeRec) (api api' : List NodeRec → NodeApiResp) :
    (nodeSetAbsent d pool table true api).changed =
      (nodeSetAbsent d pool table false api').changed := by
  by_cases hex : table.any (fun n => n.node == d.node) = true
  · simp only [nodeSetAbsent, hex, if_true]
    split <;> (try split)
    all_goals rfl
  · have hex' : table.any (fun n => n.node == d.node) = false := by simpa using hex
    simp [nodeSetAbsent, hex']

theorem nodeSetAbsent_msg_eq (d : NodeDesired) (pool : String)
    (table : List NodeRec) (api api' : List NodeRec → NodeApiResp) :
    (nodeSetAbsent d pool table true api).msg =
      (nodeSetAbsent d pool table false api').msg := by
  by_cases hex : table.any (fun n => n.node == d.node) = true
  · simp only [nodeSetAbsent, hex, if_true]
    split <;> (try split)
    all_goals rfl
  · have hex' : table.any (fun n => n.node == d.node) = false := by simpa using hex
    simp [nodeSetAbsent, hex']

theorem nodeSetPresent_check_writes (d : NodeDesired) (pool : String)
    (table : List NodeRec) (api : List NodeRec → NodeApiResp) :
    (nodeSetPresent d pool table true api).writes = [] := by
  by_cases hex : table.any (fun n => n.node == d.node) = true
  · simp only [nodeSetPresent, hex, Bool.not_true, Bool.false_eq_true, if_false]
    split <;> rfl
  · have hex' : table.any (fun n => n.node == d.node) = false := by simpa using hex
    simp [nodeSetPresent, hex']

theorem nodeSetPresent_check_table (d : NodeDesired) (pool : String)
    (table : List NodeRec) (api : List NodeRec → NodeApiResp) :
    (nodeSetPresent d pool table true api).table = inPlaceTable d table := by
  by_cases hex : table.any (fun n => n.node == d.node) = true
  · have hsome : (firstMatch table d.node).isSome = true := by
      rw [← any_eq_firstMatch]; exact hex
    obtain ⟨cn, hcn⟩ := Option.isSome_iff_exists.mp hsome
    by_cases hdif : desiredDiffers d cn = true
    · simp [nodeSetPresent, hex, hcn, hdif, inPlaceTable]
    · have hdif' : desiredDiffers d cn = false := by simpa using hdif
      simp [nodeSetPresent, hex, hcn, hdif', inPlaceTable]
  · have hex' : table.any (fun n => n.node == d.node) = false := by simpa using hex
    have hfm := firstMatch_none_of_any_false table d.node hex'
    simp [nodeSetPresent, hex', inPlaceTable, hfm]

theorem nodeSetPresent_changed_eq (d : NodeDesired) (pool : String)
    (table : List NodeRec) (api api' : List NodeRec → NodeApiResp) :
    (nodeSetPresent d pool table true api).changed =
      (nodeSetPresent d pool table false api').changed := by
  by_cases hex : table.any (fun n => n.node == d.node) = true
  · have hsome : (firstMatch table d.node).isSome = true := by
      rw [← any_eq_firstMatch]; exact hex
    obtain ⟨cn, hcn⟩ := Option.isSome_iff_exists.mp hsome
    by_cases hdif : desiredDiffers d cn = true
    · simp only [nodeSetPresent, hex, Bool.not_true, Bool.false_eq_true, if_false,
        hcn, Option.getD_some, hdif, if_true]
      split <;> (try split)
      all_goals rfl
    · have hdif' : desiredDiffers d cn = false := by simpa using hdif
      simp [nodeSetPresent, hex, hcn, hdif']
  · have hex' : table.any (fun n => n.node == d.node) = false := by simpa using hex
    simp only [nodeSetPresent, hex', Bool.not_false, if_true]
    split <;> (try split)
    all_goals rfl

theorem nodeSetPresent_msg_eq (d : NodeDesired) (pool : String)
    (table : List NodeRec) (api api' : List NodeRec → NodeApiResp) :
    (nodeSetPresent d pool table true api).msg =
      (nodeSetPresent d pool table false api').msg := by
  by_cases hex : table.any (fun n => n.node == d.node) = true
  · have hsome : (firstMatch table d.node).isSome = true := by
      rw [← any_eq_firstMatch]; exact hex
    obtain ⟨cn, hcn⟩ := Option.isSome_iff_exists.mp hsome
    by_cases hdif : desiredDiffers d cn = true
    · simp only [nodeSetPresent, hex, Bool.not_true, Bool.false_eq_true, if_false,
        hcn, Option.getD_some, hdif, if_true]
      split <;> (try split)
      all_goals rfl
    · have hdif' : desiredDiffers d cn = false := by simpa using hdif
      simp [nodeSetPresent, hex, hcn, hdif']
  · have hex' : table.any (fun n => n.node == d.node) = false := by simpa using hex
    simp only [nodeSetPresent, hex', Bool.not_false, if_true]
    split <;> (try split)
    all_goals rfl


theorem nonEmptyProps_drop_key (props : List (String × JVal)) (k : String) :
    (∀ v, (k, v) ∈ props → v = JVal.null) →
    nonEmptyProps props = nonEmptyProps (props.filter (fun p => !(p.1 == k))) := by
  induction props with
  | nil => intro h; rfl
  | cons q rest ih =>
    intro h
    obtain ⟨k1, v1⟩ := q
    have hrest : ∀ v, (k, v) ∈ rest → v = JVal.null :=
      fun v hv => h v (List.mem_cons_of_mem _ hv)
    have ihr := ih hrest
    by_cases hk : (k1 == k) = true
    · have hk1 : k1 = k := eq_of_beq hk
      subst hk1
      have hnull : v1 = JVal.null := h v1 (List.mem_cons_self _ _)
      subst hnull
      have e1 : nonEmptyProps ((k1, JVal.null) :: rest) = nonEmptyProps rest := by
        simp [nonEmptyProps, List.filter_cons, jbeq]
      have e2 : ((k1, JVal.null) :: rest).filter (fun p => !(p.1 == k1)) =
          rest.filter (fun p => !(p.1 == k1)) := by
        simp [List.filter_cons]
      rw [e2, e1, ihr]
    · have hkf : (k1 == k) = false := by simpa using hk
      have e2 : ((k1, v1) :: rest).filter (fun p => !(p.1 == k)) =
          (k1, v1) :: rest.filter (fun p => !(p.1 == k)) := by
        simp [List.filter_cons, hkf]
      rw [e2]
      by_cases hn : jbeq v1 JVal.null = true
      · have e1 : nonEmptyProps ((k1, v1) :: rest) = nonEmptyProps rest := by
          simp [nonEmptyProps, List.filter_cons, hn]
        have e3 : nonEmptyProps ((k1, v1) :: rest.filter (fun p => !(p.1 == k))) =
            nonEmptyProps (rest.filter (fun p => !(p.1 == k))) := by
          simp [nonEmptyProps, List.filter_cons, hn]
        rw [e1, e3, ihr]
      · have hn' : jbeq v1 JVal.null = false := by simpa using hn
        have e1 : nonEmptyProps ((k1, v1) :: rest) = (k1, v1) :: nonEmptyProps rest := by
          simp [nonEmptyProps, List.filter_cons, hn']
        have e3 : nonEmptyProps ((k1, v1) :: rest.filter (fun p => !(p.1 == k))) =
            (k1, v1) :: nonEmptyProps (rest.filter (fun p => !(p.1 == k))) := by
          simp [nonEmptyProps, List.filter_cons, hn']
        rw [e1, e3, ihr]

/-- C1: the claim says a diff at nested leaf a.b.c yields exactly one
entry whose field-path is the full accumulated dotted path "a.b.c".
Evaluating the embedded `_pool_changes` on trees differing only at
a.b.c shows the single entry has correct before/after values but path
"b.c": the recursion passes the bare key as the new `parent`
(line 108), discarding every ancestor above the immediate parent. -/
theorem pool_diff_depth3_path :
    poolChanges [("a", JVal.obj [("b", JVal.obj [("c", JVal.num 2)])])]
      (JVal.obj [("a", JVal.obj [("b", JVal.obj [("c", JVal.num 1)])])]) "" =
      Except.ok [{ path := "b.c", before := JVal.num 1, after := JVal.num 2 }] := rfl

/-- C2 counterexample: a desired tree mapping the nested key
basic.note to an explicit null produces a change entry with after-value
null, and the update PUT body still carries that null.  Only top-level
nulls are stripped (`__init__` line 73); `_pool_changes` never tests
the desired value for null. -/
theorem nested_null_reported_and_written :
    poolChanges (nonEmptyProps [("basic", JVal.obj [("note", JVal.null)])])
        (JVal.obj [("basic", JVal.obj [("note", JVal.str "x")])]) "" =
      Except.ok [{ path := "basic.note", before := JVal.str "x", after := JVal.null }] ∧
    (poolSetPresent true "web" (nonEmptyProps [("basic", JVal.obj [("note", JVal.null)])])
        (JVal.obj [("properties", JVal.obj [("basic", JVal.obj [("note", JVal.str "x")])])])
        false (faithfulPoolApi (some (JVal.obj [])))).writes =
      [WriteCall.putBody (JVal.obj [("properties",
        JVal.obj [("basic", JVal.obj [("note", JVal.null)])])])] :=
  ⟨rfl, rfl⟩

/-- C2 amended: a TOP-LEVEL key of the desired property tree whose
every binding is an explicit null is stripped before diffing and
writing — it appears neither in the diff input nor in the PUT body.
The guarantee does not extend to nested keys (see the
counterexample). -/
theorem top_level_null_stripped (props : List (String × JVal)) (k : String)
    (h : ∀ v, (k, v) ∈ props → v = JVal.null) :
    (∀ p ∈ nonEmptyProps props, ¬(p.1 = k)) ∧
      nonEmptyProps props = nonEmptyProps (props.filter (fun p => !(p.1 == k))) := by
  refine ⟨?_, nonEmptyProps_drop_key props k h⟩
  intro p hp hpk
  rw [nonEmptyProps, List.mem_filter] at hp
  have hmem : (k, p.2) ∈ props := by
    rw [← hpk]
    exact hp.1
  have hnull := h p.2 hmem
  have htest := hp.2
  rw [hnull] at htest
  simp [jbeq] at htest

/-- Witness for the amended C2 claim at a concrete desired tree. -/
theorem top_level_null_stripped_witness :
    (∀ v, ("w", v) ∈ [("w", JVal.null), ("note", JVal.str "x")] → v = JVal.null) ∧
      ((∀ p ∈ nonEmptyProps [("w", JVal.null), ("note", JVal.str "x")], ¬(p.1 = "w")) ∧
        nonEmptyProps [("w", JVal.null), ("note", JVal.str "x")] =
          nonEmptyProps ([("w", JVal.null), ("note", JVal.str "x")].filter
            (fun p => !(p.1 == "w")))) :=
  ⟨fun v hv => by simpa using hv,
   top_level_null_stripped _ _ (fun v hv => by simpa using hv)⟩

/-- C3 counterexample: a pool UPDATE whose PUT answers status 500 with
body "boom" terminates fatally, but the failure message is the bare
change list — line 192 attaches no error key, so the raw response body
is not carried. -/
theorem update_failure_lacks_body :
    ((poolSetPresent true "web" [("note", JVal.str "y")]
        (JVal.obj [("properties", JVal.obj [("note", JVal.str "x")])]) false
        (fun _ => { status := 500, text := "boom", parsed := none })).fatal).isSome = true ∧
    ((poolSetPresent true "web" [("note", JVal.str "y")]
        (JVal.obj [("properties", JVal.obj [("note", JVal.str "x")])]) false
        (fun _ => { status := 500, text := "boom", parsed := none })).fatal).map
      (fun m => poolMsgCarriesBody m "boom") = some false :=
  ⟨rfl, rfl⟩

/-- C3 amended: every write with an unexpected status terminates
fatally, but the message contents differ per path: pool DELETE
(non-204) and pool CREATE (non-201) failures carry the changes
dictionary plus the raw response body; a pool UPDATE failure (non-200)
carries only the bare change list; and every node-table PUT failure
(non-200) — remove-node (line 158), add-node (line 191) and field
mutation (line 224) alike — aborts with the IndexError text of the
malformed format string "HTTP {2}", carrying neither the change record
nor the body. -/
theorem write_failure_messages :
    (∀ (pool : String) (data0 : JVal) (resp : HttpResp), ¬resp.status = 204 →
        (poolSetAbsent true pool data0 false resp).fatal =
          some (PoolMsg.dict pool (some "destroy_pool") (some resp.text))) ∧
    (∀ (pool : String) (props : List (String × JVal)) (data0 : JVal)
        (st : Nat) (txt : String), ¬st = 201 →
        (poolSetPresent false pool props data0 false
            (fun _ => { status := st, text := txt, parsed := none })).fatal =
          some (PoolMsg.dict pool (some "create_pool") (some txt))) ∧
    (∀ (pool : String) (props : List (String × JVal)) (data0 curP : JVal)
        (cs : List PoolChange) (st : Nat) (txt : String),
        pyIndex data0 "properties" = Except.ok curP →
        poolChanges props curP "" = Except.ok cs → ¬cs = [] → ¬st = 200 →
        (poolSetPresent true pool props data0 false
            (fun _ => { status := st, text := txt, parsed := none })).fatal =
          some (PoolMsg.changeList cs)) ∧
    (∀ (d : NodeDesired) (pool : String) (table : List NodeRec)
        (st : Nat) (tnew : List NodeRec),
        table.any (fun n => n.node == d.node) = true → ¬st = 200 →
        (nodeSetAbsent d pool table false
            (fun _ => { status := st, newTable := tnew })).fatal =
          some (NodeFail.text "tuple index out of range")) ∧
    (∀ (d : NodeDesired) (pool : String) (table : List NodeRec)
        (st : Nat) (tnew : List NodeRec),
        table.any (fun n => n.node == d.node) = false → ¬st = 200 →
        (nodeSetPresent d pool table false
            (fun _ => { status := st, newTable := tnew })).fatal =
          some (NodeFail.text "tuple index out of range")) ∧
    (∀ (d : NodeDesired) (pool : String) (table : List NodeRec) (cn : NodeRec)
        (st : Nat) (tnew : List NodeRec),
        firstMatch table d.node = some cn → desiredDiffers d cn = true → ¬st = 200 →
        (nodeSetPresent d pool table false
            (fun _ => { status := st, newTable := tnew })).fatal =
          some (NodeFail.text "tuple index out of range")) := by
  refine ⟨?_, ?_, ?_, ?_, ?_, ?_⟩
  · intro pool data0 resp h
    have hb : (resp.status == 204) = false := beq_eq_false_iff_ne.mpr h
    simp [poolSetAbsent, hb]
  · intro pool props data0 st txt h
    have hb : (st == 201) = false := beq_eq_false_iff_ne.mpr h
    simp [poolSetPresent, hb]
  · intro pool props data0 curP cs st txt hidx hdf hcs hst
    have hb : (st == 200) = false := beq_eq_false_iff_ne.mpr hst
    have hcs' : cs.isEmpty = false := by
      cases cs with
      | nil => exact absurd rfl hcs
      | cons a l => rfl
    simp [poolSetPresent, hidx, hdf, hcs', hb]
  · intro d pool table st tnew hex hst
    have hb : (st == 200) = false := beq_eq_false_iff_ne.mpr hst
    simp [nodeSetAbsent, hex, hb, nodeHttpError, formatIndex]
  · intro d pool table st tnew hex hst
    have hb : (st == 200) = false := beq_eq_false_iff_ne.mpr hst
    simp [nodeSetPresent, hex, hb, nodeHttpError, formatIndex]
  · intro d pool table cn st tnew hcn hdif hst
    have hb : (st == 200) = false := beq_eq_false_iff_ne.mpr hst
    have hex : table.any (fun n => n.node == d.node) = true := by
      rw [any_eq_firstMatch, hcn]; rfl
    simp [nodeSetPresent, hex, hcn, hdif, hb, nodeHttpError, formatIndex]

/-- Witness for the amended C3 claim: every failure path — pool
delete, create and update, node remove, add and mutate — exercised at
a concrete unexpected status. -/
theorem write_failure_messages_witness :
    (poolSetAbsent true "web" (JVal.obj []) false
        { status := 500, text := "boom", parsed := none }).fatal =
      some (PoolMsg.dict "web" (some "destroy_pool") (some "boom")) ∧
    (poolSetPresent false "web" [] (JVal.obj []) false
        (fun _ => { status := 500, text := "boom", parsed := none })).fatal =
      some (PoolMsg.dict "web" (some "create_pool") (some "boom")) ∧
    (poolSetPresent true "web" [("note", JVal.str "y")]
        (JVal.obj [("properties", JVal.obj [("note", JVal.str "x")])]) false
        (fun _ => { status := 500, text := "boom", parsed := none })).fatal =
      some (PoolMsg.changeList
        [{ path := "note", before := JVal.str "x", after := JVal.str "y" }]) ∧
    (nodeSetAbsent { node := "n1", lbState := none, weight := none, priority := none }
        "web" [{ node := "n1", state := "active", weight := 1, priority := 1 }] false
        (fun _ => { status := 500, newTable := [] })).fatal =
      some (NodeFail.text "tuple index out of range") ∧
    (nodeSetPresent { node := "n2", lbState := none, weight := none, priority := none }
        "web" [{ node := "n1", state := "active", weight := 1, priority := 1 }] false
        (fun _ => { status := 500, newTable := [] })).fatal =
      some (NodeFail.text "tuple index out of range") ∧
    (nodeSetPresent { node := "n1", lbState := none, weight := some 5, priority := none }
        "web" [{ node := "n1", state := "active", weight := 1, priority := 1 }] false
        (fun _ => { status := 500, newTable := [] })).fatal =
      some (NodeFail.text "tuple index out of range") :=
  ⟨write_failure_messages.1 "web" (JVal.obj [])
      { status := 500, text := "boom", parsed := none } (by decide),
   write_failure_messages.2.1 "web" [] (JVal.obj []) 500 "boom" (by decide),
   write_failure_messages.2.2.1 "web" [("note", JVal.str "y")]
      (JVal.obj [("properties", JVal.obj [("note", JVal.str "x")])])
      (JVal.obj [("note", JVal.str "x")])
      [{ path := "note", before := JVal.str "x", after := JVal.str "y" }]
      500 "boom" rfl rfl (by simp) (by decide),
   write_failure_messages.2.2.2.1
      { node := "n1", lbState := none, weight := none, priority := none }
      "web" [{ node := "n1", state := "active", weight := 1, priority := 1 }]
      500 [] (by decide) (by decide),
   write_failure_messages.2.2.2.2.1
      { node := "n2", lbState := none, weight := none, priority := none }
      "web" [{ node := "n1", state := "active", weight := 1, priority := 1 }]
      500 [] (by decide) (by decide),
   write_failure_messages.2.2.2.2.2
      { node := "n1", lbState := none, weight := some 5, priority := none }
      "web" [{ node := "n1", state := "active", weight := 1, priority := 1 }]
      { node := "n1", state := "active", weight := 1, priority := 1 } 500 [] rfl rfl (by decide)⟩

/-- C6: a desired key whose current counterpart is missing or null is
skipped wholesale by the diff — the result equals the diff with that
key deleted from the desired tree, at whatever nesting level the call
happens. -/
theorem diff_skips_unset_current (newF curF : List (String × JVal)) (parent k : String)
    (h : dictGet curF k = JVal.null) :
    poolChanges newF (JVal.obj curF) parent =
      poolChanges (newF.filter (fun p => !(p.1 == k))) (JVal.obj curF) parent :=
  poolChanges_skip_key newF curF parent k h

/-- Witness for C6 at a concrete desired key absent from the current
tree. -/
theorem diff_skips_unset_current_witness :
    dictGet [("other", JVal.num 1)] "missing" = JVal.null ∧
      poolChanges [("missing", JVal.num 5), ("other", JVal.num 2)]
          (JVal.obj [("other", JVal.num 1)]) "" =
        poolChanges ([("missing", JVal.num 5), ("other", JVal.num 2)].filter
            (fun p => !(p.1 == "missing")))
          (JVal.obj [("other", JVal.num 1)]) "" :=
  ⟨rfl, diff_skips_unset_current _ _ "" "missing" rfl⟩

/-- C9: in the pool module a 404 fetch still parses the response body
and keeps it as the pool data (with the pool marked absent), while a
404 body that fails to parse is a fatal decode failure. -/
theorem notfound_body_still_parsed :
    (∀ body : JVal, poolInit 404 (some body) = InitResult.ready false body) ∧
      poolInit 404 none = InitResult.fatal :=
  ⟨fun _ => rfl, rfl⟩

/-- C10: the recursive diff returns a Change Record whenever the shape
precondition holds (desired-dictionary keys have dictionary or null
current counterparts, recursively), and raises on a violating input:
desired maps "a" to a non-empty dictionary while current maps it to
the scalar 5. -/
theorem diff_totality_shape :
    (∀ (f : List (String × JVal)) (cur : JVal) (p : String), shapeOk f cur = true →
        ∃ cs, poolChanges f cur p = Except.ok cs) ∧
      poolChanges [("a", JVal.obj [("b", JVal.num 1)])] (JVal.obj [("a", JVal.num 5)]) "" =
        Except.error () :=
  ⟨poolChanges_total, rfl⟩

/-- Witness for C10's totality half at a concrete shape-respecting
input. -/
theorem diff_totality_shape_witness :
    shapeOk [("a", JVal.num 3)] (JVal.obj []) = true ∧
      (∃ cs, poolChanges [("a", JVal.num 3)] (JVal.obj []) "" = Except.ok cs) :=
  ⟨rfl, diff_totality_shape.1 [("a", JVal.num 3)] (JVal.obj []) "" rfl⟩

theorem poolInvoke_writes_changed (present : Bool) (props : List (String × JVal))
    (remote : Option JVal) (h : ¬(poolInvoke present props remote).writes = []) :
    (poolInvoke present props remote).changed = true := by
  cases present with
  | false =>
    cases remote with
    | none => exact absurd rfl h
    | some r => rfl
  | true =>
    cases remote with
    | none =>
      have := poolSetPresent_real_create_changed "pool" (nonEmptyProps props)
        (JVal.obj [("error", JVal.str "not found")]) (faithfulPoolApi none)
      simpa [poolInvoke] using this
    | some r =>
      cases hidx : pyIndex r "properties" with
      | error e =>
        exfalso; apply h; simp [poolInvoke, poolSetPresent, hidx]
      | ok curP =>
        cases hdf : poolChanges (nonEmptyProps props) curP "" with
        | error e =>
          exfalso; apply h; simp [poolInvoke, poolSetPresent, hidx, hdf]
        | ok cs =>
          by_cases hcs : cs.isEmpty = true
          · exfalso; apply h; simp [poolInvoke, poolSetPresent, hidx, hdf, hcs]
          · have hcs' : cs.isEmpty = false := by simpa using hcs
            simp [poolInvoke, poolSetPresent, hidx, hdf, hcs', faithfulPoolApi]

theorem nodeInvoke_writes_changed (present : Bool) (d : NodeDesired)
    (table : List NodeRec) (h : ¬(nodeInvoke present d table).writes = []) :
    (nodeInvoke present d table).changed = true := by
  cases present with
  | false =>
    by_cases hex : table.any (fun n => n.node == d.node) = true
    · simp [nodeInvoke, nodeSetAbsent, hex, faithfulNodeApi]
    · exfalso; apply h
      have hex' : table.any (fun n => n.node == d.node) = false := by simpa using hex
      simp [nodeInvoke, nodeSetAbsent, hex']
  | true =>
    by_cases hex : table.any (fun n => n.node == d.node) = true
    · have hsome : (firstMatch table d.node).isSome = true := by
        rw [← any_eq_firstMatch]; exact hex
      obtain ⟨cn, hcn⟩ := Option.isSome_iff_exists.mp hsome
      by_cases hdif : desiredDiffers d cn = true
      · simp [nodeInvoke, nodeSetPresent, hex, hcn, hdif, faithfulNodeApi]
      · exfalso; apply h
        have hdif' : desiredDiffers d cn = false := by simpa using hdif
        simp [nodeInvoke, nodeSetPresent, hex, hcn, hdif']
    · have hex' : table.any (fun n => n.node == d.node) = false := by simpa using hex
      simp [nodeInvoke, nodeSetPresent, hex', faithfulNodeApi]

/-- C4: reconciliation against a faithful remote is idempotent.  The
second of two successive runs of the same desired state reports
changed equal to false (for both the pool and the node module), and
whenever a run issues a write its changed flag is true.  The pool half
assumes Python-dictionary well-formedness of the desired tree (no
duplicate keys) and a non-fatal first run. -/
theorem reconcile_idempotent :
    (∀ (present : Bool) (props : List (String × JVal)) (remote : Option JVal),
        wfFields (nonEmptyProps props) = true →
        (poolInvoke present props remote).fatal = none →
        (poolInvoke present props
            (poolRemoteAfter remote (poolInvoke present props remote).writes)).changed =
          false) ∧
    (∀ (present : Bool) (props : List (String × JVal)) (remote : Option JVal),
        ¬(poolInvoke present props remote).writes = [] →
        (poolInvoke present props remote).changed = true) ∧
    (∀ (present : Bool) (d : NodeDesired) (table : List NodeRec),
        (nodeInvoke present d (nodeInvoke present d table).table).changed = false) ∧
    (∀ (present : Bool) (d : NodeDesired) (table : List NodeRec),
        ¬(nodeInvoke present d table).writes = [] →
        (nodeInvoke present d table).changed = true) :=
  ⟨poolInvoke_second_unchanged, poolInvoke_writes_changed,
   nodeInvoke_second_unchanged, nodeInvoke_writes_changed⟩

/-- Witness for C4 at concrete desired states: a pool create followed
by a re-run, and a node weight mutation followed by a re-run. -/
theorem reconcile_idempotent_witness :
    wfFields (nonEmptyProps [("note", JVal.str "x")]) = true ∧
    (poolInvoke true [("note", JVal.str "x")] none).fatal = none ∧
    (poolInvoke true [("note", JVal.str "x")]
        (poolRemoteAfter none
          (poolInvoke true [("note", JVal.str "x")] none).writes)).changed = false ∧
    ¬(poolInvoke true [("note", JVal.str "x")] none).writes = [] ∧
    (poolInvoke true [("note", JVal.str "x")] none).changed = true ∧
    (nodeInvoke true { node := "n1", lbState := none, weight := some 5, priority := none }
        (nodeInvoke true { node := "n1", lbState := none, weight := some 5, priority := none }
          [{ node := "n1", state := "active", weight := 1, priority := 1 }]).table).changed =
      false ∧
    ¬(nodeInvoke true { node := "n1", lbState := none, weight := some 5, priority := none }
        [{ node := "n1", state := "active", weight := 1, priority := 1 }]).writes = [] ∧
    (nodeInvoke true { node := "n1", lbState := none, weight := some 5, priority := none }
        [{ node := "n1", state := "active", weight := 1, priority := 1 }]).changed = true := by
  have hne : ¬(poolInvoke true [("note", JVal.str "x")] none).writes = [] := by
    intro hh
    rw [show (poolInvoke true [("note", JVal.str "x")] none).writes =
        [WriteCall.putBody (JVal.obj [("properties",
          JVal.obj [("note", JVal.str "x")])])] from rfl] at hh
    cases hh
  have hnn : ¬(nodeInvoke true
      { node := "n1", lbState := none, weight := some 5, priority := none }
      [{ node := "n1", state := "active", weight := 1, priority := 1 }]).writes = [] := by
    decide
  refine ⟨rfl, rfl, ?_, hne, ?_, ?_, hnn, ?_⟩
  · exact reconcile_idempotent.1 true [("note", JVal.str "x")] none rfl rfl
  · exact reconcile_idempotent.2.1 true [("note", JVal.str "x")] none hne
  · exact reconcile_idempotent.2.2.1 true
      { node := "n1", lbState := none, weight := some 5, priority := none }
      [{ node := "n1", state := "active", weight := 1, priority := 1 }]
  · exact reconcile_idempotent.2.2.2 true
      { node := "n1", lbState := none, weight := some 5, priority := none }
      [{ node := "n1", state := "active", weight := 1, priority := 1 }] hnn

/-- C5: mutating an existing node rewrites the whole table as the
untouched entries in their original relative order followed by exactly
one entry for the mutated node, relocated to the end and carrying the
mutated field values; the run reports changed. -/
theorem node_table_rewrite (d : NodeDesired) (pool : String) (table : List NodeRec)
    (cn : NodeRec) (hfind : firstMatch table d.node = some cn)
    (hdif : desiredDiffers d cn = true) :
    (nodeSetPresent d pool table false faithfulNodeApi).writes =
      [table.filter (fun n => !(n.node == d.node)) ++ [applyDesired d cn]] ∧
    (nodeSetPresent d pool table false faithfulNodeApi).table =
      table.filter (fun n => !(n.node == d.node)) ++ [applyDesired d cn] ∧
    (nodeSetPresent d pool table false faithfulNodeApi).changed = true := by
  have hex : table.any (fun n => n.node == d.node) = true := by
    rw [any_eq_firstMatch, hfind]; rfl
  have hmat : (cn.node == d.node) = true := firstMatch_matches _ _ _ hfind
  have hcn3 : ((applyDesired d cn).node == d.node) = true := by
    rw [applyDesired_node]; exact hmat
  have hmf := filter_mutateFirst table d.node (applyDesired d cn) hcn3
  refine ⟨?_, ?_, ?_⟩ <;>
    simp [nodeSetPresent, hex, hfind, hdif, faithfulNodeApi, hmf]

/-- Witness for C5: pool with nodes X, Y, Z; X's weight is raised to
5; the written table is Y, Z in order followed by the mutated X. -/
theorem node_table_rewrite_witness :
    firstMatch [{ node := "10.0.0.1", state := "active", weight := 1, priority := 1 },
        { node := "10.0.0.2", state := "active", weight := 1, priority := 1 },
        { node := "10.0.0.3", state := "active", weight := 1, priority := 1 }] "10.0.0.1" =
      some { node := "10.0.0.1", state := "active", weight := 1, priority := 1 } ∧
    desiredDiffers { node := "10.0.0.1", lbState := none, weight := some 5, priority := none }
      { node := "10.0.0.1", state := "active", weight := 1, priority := 1 } = true ∧
    ((nodeSetPresent { node := "10.0.0.1", lbState := none, weight := some 5, priority := none }
        "web" [{ node := "10.0.0.1", state := "active", weight := 1, priority := 1 },
          { node := "10.0.0.2", state := "active", weight := 1, priority := 1 },
          { node := "10.0.0.3", state := "active", weight := 1, priority := 1 }]
        false faithfulNodeApi).writes =
      [[{ node := "10.0.0.1", state := "active", weight := 1, priority := 1 },
          { node := "10.0.0.2", state := "active", weight := 1, priority := 1 },
          { node := "10.0.0.3", state := "active", weight := 1, priority := 1 }].filter
          (fun n => !(n.node == "10.0.0.1")) ++
        [applyDesired { node := "10.0.0.1", lbState := none, weight := some 5, priority := none }
          { node := "10.0.0.1", state := "active", weight := 1, priority := 1 }]] ∧
      (nodeSetPresent { node := "10.0.0.1", lbState := none, weight := some 5, priority := none }
        "web" [{ node := "10.0.0.1", state := "active", weight := 1, priority := 1 },
          { node := "10.0.0.2", state := "active", weight := 1, priority := 1 },
          { node := "10.0.0.3", state := "active", weight := 1, priority := 1 }]
        false faithfulNodeApi).table =
      [{ node := "10.0.0.1", state := "active", weight := 1, priority := 1 },
          { node := "10.0.0.2", state := "active", weight := 1, priority := 1 },
          { node := "10.0.0.3", state := "active", weight := 1, priority := 1 }].filter
          (fun n => !(n.node == "10.0.0.1")) ++
        [applyDesired { node := "10.0.0.1", lbState := none, weight := some 5, priority := none }
          { node := "10.0.0.1", state := "active", weight := 1, priority := 1 }] ∧
      (nodeSetPresent { node := "10.0.0.1", lbState := none, weight := some 5, priority := none }
        "web" [{ node := "10.0.0.1", state := "active", weight := 1, priority := 1 },
          { node := "10.0.0.2", state := "active", weight := 1, priority := 1 },
          { node := "10.0.0.3", state := "active", weight := 1, priority := 1 }]
        false faithfulNodeApi).changed = true) :=
  ⟨by decide, by decide,
   node_table_rewrite _ "web" _ _ (by decide) (by decide)⟩

/-- C7: requesting absence of an already absent pool, or of a node not
in the pool's table, reports changed equal to false, issues no write,
and returns the fetched state unchanged. -/
theorem absent_on_absent_noop :
    (∀ (pool : String) (data0 : JVal) (checkMode : Bool) (resp : HttpResp),
        poolSetAbsent false pool data0 checkMode resp =
          { fatal := none, changed := false, msg := PoolMsg.dict pool none none,
            writes := [], data := data0 }) ∧
    (∀ (d : NodeDesired) (pool : String) (table : List NodeRec) (checkMode : Bool)
        (api : List NodeRec → NodeApiResp),
        table.any (fun n => n.node == d.node) = false →
        nodeSetAbsent d pool table checkMode api =
          { fatal := none, changed := false, msg := baseNodeMsg d.node pool,
            writes := [], table := table }) := by
  constructor
  · intro pool data0 ck resp
    rfl
  · intro d pool table ck api h
    simp [nodeSetAbsent, h]

/-- Witness for C7 at a concrete absent pool and absent node. -/
theorem absent_on_absent_noop_witness :
    poolSetAbsent false "web" (JVal.obj []) false
        { status := 204, text := "", parsed := none } =
      { fatal := none, changed := false, msg := PoolMsg.dict "web" none none,
        writes := [], data := JVal.obj [] } ∧
    ([{ node := "10.0.0.2", state := "active", weight := 1, priority := 1 }] :
        List NodeRec).any (fun n => n.node == "10.0.0.9") = false ∧
    nodeSetAbsent { node := "10.0.0.9", lbState := none, weight := none, priority := none }
        "web" [{ node := "10.0.0.2", state := "active", weight := 1, priority := 1 }]
        false faithfulNodeApi =
      { fatal := none, changed := false, msg := baseNodeMsg "10.0.0.9" "web",
        writes := [],
        table := [{ node := "10.0.0.2", state := "active", weight := 1, priority := 1 }] } :=
  ⟨absent_on_absent_noop.1 "web" (JVal.obj []) false
      { status := 204, text := "", parsed := none },
   by decide,
   absent_on_absent_noop.2 _ "web" _ false faithfulNodeApi (by decide)⟩

/-- C8 counterexample: in check mode a node weight mutation issues no
write and reports changed, but the in-memory snapshot is NOT left as
fetched: the matched node's fields are mutated in place (through the
Python alias into pool_data) before the dry-run return. -/
theorem dry_run_mutates_node_snapshot :
    (nodeSetPresent { node := "10.0.0.1", lbState := none, weight := some 5, priority := none }
        "web" [{ node := "10.0.0.1", state := "active", weight := 1, priority := 1 }]
        true faithfulNodeApi).writes = [] ∧
    (nodeSetPresent { node := "10.0.0.1", lbState := none, weight := some 5, priority := none }
        "web" [{ node := "10.0.0.1", state := "active", weight := 1, priority := 1 }]
        true faithfulNodeApi).changed = true ∧
    (nodeSetPresent { node := "10.0.0.1", lbState := none, weight := some 5, priority := none }
        "web" [{ node := "10.0.0.1", state := "active", weight := 1, priority := 1 }]
        true faithfulNodeApi).table =
      [{ node := "10.0.0.1", state := "active", weight := 5, priority := 1 }] ∧
    ¬(nodeSetPresent { node := "10.0.0.1", lbState := none, weight := some 5, priority := none }
        "web" [{ node := "10.0.0.1", state := "active", weight := 1, priority := 1 }]
        true faithfulNodeApi).table =
      [{ node := "10.0.0.1", state := "active", weight := 1, priority := 1 }] :=
  ⟨rfl, rfl, by decide, by decide⟩

/-- C8 amended: with check mode enabled, every reconciliation path
issues zero writes and reports the same changed flag and Change Record
as a real run; the pool module's in-memory data is left as fetched,
while the node module's snapshot carries the in-place field mutations
of the matched node (at its original position). -/
theorem dry_run_no_writes :
    (∀ (pool : String) (data0 : JVal) (resp resp' : HttpResp),
        (poolSetAbsent true pool data0 true resp).writes = [] ∧
        (poolSetAbsent true pool data0 true resp).data = data0 ∧
        (poolSetAbsent true pool data0 true resp).changed =
          (poolSetAbsent true pool data0 false resp').changed ∧
        (poolSetAbsent true pool data0 true resp).msg =
          (poolSetAbsent true pool data0 false resp').msg) ∧
    (∀ (found : Bool) (pool : String) (props : List (String × JVal)) (data0 : JVal)
        (api api' : JVal → HttpResp),
        (poolSetPresent found pool props data0 true api).writes = [] ∧
        (poolSetPresent found pool props data0 true api).data = data0 ∧
        (poolSetPresent found pool props data0 true api).changed =
          (poolSetPresent found pool props data0 false api').changed ∧
        (poolSetPresent found pool props data0 true api).msg =
          (poolSetPresent found pool props data0 false api').msg) ∧
    (∀ (d : NodeDesired) (pool : String) (table : List NodeRec)
        (api api' : List NodeRec → NodeApiResp),
        (nodeSetAbsent d pool table true api).writes = [] ∧
        (nodeSetAbsent d pool table true api).table = table ∧
        (nodeSetAbsent d pool table true api).changed =
          (nodeSetAbsent d pool table false api').changed ∧
        (nodeSetAbsent d pool table true api).msg =
          (nodeSetAbsent d pool table false api').msg) ∧
    (∀ (d : NodeDesired) (pool : String) (table : List NodeRec)
        (api api' : List NodeRec → NodeApiResp),
        (nodeSetPresent d pool table true api).writes = [] ∧
        (nodeSetPresent d pool table true api).changed =
          (nodeSetPresent d pool table false api').changed ∧
        (nodeSetPresent d pool table true api).msg =
          (nodeSetPresent d pool table false api').msg ∧
        (nodeSetPresent d pool table true api).table = inPlaceTable d table) := by
  refine ⟨?_, ?_, ?_, ?_⟩
  · intro pool data0 resp resp'
    refine ⟨rfl, rfl, ?_, ?_⟩
    · rw [poolSetAbsent_real_changed]
      rfl
    · rw [poolSetAbsent_real_msg]
      rfl
  · intro found pool props data0 api api'
    exact ⟨poolSetPresent_check_writes found pool props data0 api,
      poolSetPresent_check_data found pool props data0 api,
      poolSetPresent_changed_eq found pool props data0 api api',
      poolSetPresent_msg_eq found pool props data0 api api'⟩
  · intro d pool table api api'
    exact ⟨nodeSetAbsent_check_writes d pool table api,
      nodeSetAbsent_check_table d pool table api,
      nodeSetAbsent_changed_eq d pool table api api',
      nodeSetAbsent_msg_eq d pool table api api'⟩
  · intro d pool table api api'
    exact ⟨nodeSetPresent_check_writes d pool table api,
      nodeSetPresent_changed_eq d pool table api api',
      nodeSetPresent_msg_eq d pool table api api',
      nodeSetPresent_check_table d pool table api⟩
